import Mathlib

/-!
# Better-Kualitee: verification of the bulk batch-operation workflow

Shallow embedding of the non-trivial slice of the Better-Kualitee CLI tool
(`src/modules/defect.py`, `src/modules/test_cycle.py`): the form-building of
`update_defect`, the bulk CSV validators of `update_bulk_defects` and
`execute_all_from_csv`, the batch executors, `get_multiple_defects`, the
list operations and their error behaviour, and `mask_token`.

Python dicts are embedded as insertion-ordered association lists with
last-write-wins assignment (`setKey`); JSON values as `PyVal`; the HTTP layer
as an outcome oracle (`HttpOutcome`); the filesystem as a predicate oracle.
-/

namespace BetterKualitee

/-- Lookup in an association list: the Python `d.get(k)` / `d[k]` on a dict
whose insertion order is the list order. -/
def getKey {α : Type} (d : List (String × α)) (k : String) : Option α :=
  (d.find? (fun p => p.1 = k)).map (fun p => p.2)

/-- Python dict assignment `d[k] = v`: replaces the value in place when the
key is present (association lists built only with `setKey` hold each key at
most once, as a dict does), otherwise appends the new binding at the end. -/
def setKey {α : Type} : List (String × α) → String → α → List (String × α)
  | [], k, v => [(k, v)]
  | (k', v') :: rest, k, v =>
    if k' = k then (k, v) :: rest else (k', v') :: setKey rest k v

theorem getKey_nil {α : Type} (k : String) : getKey ([] : List (String × α)) k = none :=
  rfl

theorem getKey_cons {α : Type} (k₀ : String) (v₀ : α) (tl : List (String × α))
    (k' : String) :
    getKey ((k₀, v₀) :: tl) k' = if k₀ = k' then some v₀ else getKey tl k' := by
  by_cases h : k₀ = k' <;> simp [getKey, List.find?, h]

theorem getKey_setKey {α : Type} (d : List (String × α)) (k k' : String) (v : α) :
    getKey (setKey d k v) k' = if k' = k then some v else getKey d k' := by
  induction d with
  | nil =>
    show getKey [(k, v)] k' = _
    rw [getKey_cons, getKey_nil]
    by_cases h : k = k'
    · subst h; simp
    · rw [if_neg h, if_neg (fun he => h he.symm)]
  | cons hd tl ih =>
    obtain ⟨k₀, v₀⟩ := hd
    by_cases h0 : k₀ = k
    · subst h0
      simp only [setKey, if_true]
      rw [getKey_cons, getKey_cons]
      by_cases h : k₀ = k'
      · subst h; simp
      · rw [if_neg h, if_neg h, if_neg (fun he => h he.symm)]
    · simp only [setKey, if_neg h0]
      rw [getKey_cons, getKey_cons]
      by_cases h : k₀ = k'
      · have hk : ¬ k' = k := fun he => h0 (h.trans he)
        rw [if_pos h, if_neg hk, if_pos h]
      · simp only [if_neg h]
        exact ih

/-- `mask_token` from `src/modules/defect.py:111` and
`src/modules/test_cycle.py:116` (the two copies are identical): show only the
first and last 4 characters of a token longer than 8 characters. -/
def mask_token (token : String) : String :=
  if token.length ≤ 8 then "****"
  else token.take 4 ++ "..." ++ token.drop (token.length - 4)

/-- A Python/JSON value as it appears in a defect snapshot returned by the
Kualitee API. -/
inductive PyVal where
  | vnull
  | vbool (b : Bool)
  | vint (n : Int)
  | vstr (s : String)
  | vlist (l : List PyVal)
  | vdict (d : List (String × PyVal))

mutual

/-- Python `repr` for `PyVal` (string escaping is not modelled; no claim
exercises it). Used by `pyStr` inside containers, where Python renders the
elements with `repr`. -/
def pyRepr : PyVal → String
  | .vnull => "None"
  | .vbool true => "True"
  | .vbool false => "False"
  | .vint n => toString n
  | .vstr s => "'" ++ s ++ "'"
  | .vlist l => "[" ++ pyReprList l ++ "]"
  | .vdict d => "\x7b" ++ pyReprDict d ++ "\x7d"

/-- Comma-space separated `repr`s of the elements of a Python list. -/
def pyReprList : List PyVal → String
  | [] => ""
  | [v] => pyRepr v
  | v :: rest => pyRepr v ++ ", " ++ pyReprList rest

/-- Comma-space separated `repr`ed entries of a Python dict. -/
def pyReprDict : List (String × PyVal) → String
  | [] => ""
  | [(k, v)] => "'" ++ k ++ "': " ++ pyRepr v
  | (k, v) :: rest => "'" ++ k ++ "': " ++ pyRepr v ++ ", " ++ pyReprDict rest

end

/-- Python `str(v)`: identity on strings, `repr`-rendered containers. -/
def pyStr : PyVal → String
  | .vstr s => s
  | v => pyRepr v

/-- The per-field serialization of the `update_defect` copy loop
(`src/modules/defect.py:239`-249): `None` becomes the empty string, a list
becomes the comma-join of the `str` of its elements (empty list becomes the
empty string), a dict is skipped (`none`), anything else becomes `str(value)`. -/
def serializeVal : PyVal → Option String
  | .vnull => some ""
  | .vlist l =>
    some (if l.isEmpty then "" else String.intercalate "," (l.map pyStr))
  | .vdict _ => none
  | v => some (pyStr v)

/-- The `for key, value in defect_data.items()` loop of `update_defect`
(`src/modules/defect.py:239`-249), building `form_data` in iteration order. -/
def copyFields : List (String × PyVal) → List (String × String)
  | [] => []
  | (k, v) :: rest =>
    match serializeVal v with
    | none => copyFields rest
    | some s => (k, s) :: copyFields rest

/-- The form submitted by `update_defect` (`src/modules/defect.py:234`-259):
all snapshot fields copied through `copyFields`, then `status` and the RCA
custom field overridden, then `token`, `project_id`, `id`, `defect_id` set. -/
def updateDefectForm (token : String) (project_id : Int) (defect_id : String)
    (status rca : String) (defect_data : List (String × PyVal)) :
    List (String × String) :=
  let f := copyFields defect_data
  let f := setKey f "status" status
  let f := setKey f "custom_field_11665" rca
  let f := setKey f "token" token
  let f := setKey f "project_id" (toString project_id)
  let f := setKey f "id" defect_id
  setKey f "defect_id" defect_id

/-- A fetched defect snapshot as consumed by the bulk validator: a dict of
string-valued fields (`update_bulk_defects` reads only `status` and
`uc_status` from it, both strings). -/
abbrev Defect : Type := List (String × String)

/-- Python `str.lower()` (ASCII case folding; the statuses compared in the
source are ASCII). -/
def strLower (s : String) : String :=
  String.mk (s.toList.map Char.toLower)

/-- `defect.get('status', '')` from `src/modules/defect.py:544`. -/
def defectStatus (d : Defect) : String :=
  (getKey d "status").getD ""

/-- Python truthiness of `defects_data.get(defect_id)`
(`src/modules/defect.py:538`-539): `if not defect` is true when the id is
missing from the mapping, the fetch stored `None`, or the snapshot is an
empty dict. -/
def defectFalsy (o : Option Defect) : Bool :=
  match o with
  | none => true
  | some d => List.isEmpty d

/-- One CSV row of the bulk defect-closure input
(`defect_id,status,RCA`, `src/modules/defect.py:527`-530). -/
structure DefRow where
  defect_id : String
  status : String
  rca : String
deriving DecidableEq

/-- The skip reasons of `update_bulk_defects` (`src/modules/defect.py:534`,
540, 546); `invalidStatus` carries the offending status string interpolated
into the message. -/
inductive DefSkipReason where
  | invalidStatus (status : String)
  | notFound
  | alreadyClosed
deriving DecidableEq

/-- The decision the `update_bulk_defects` validation loop takes for one row:
append to `valid` (carrying the id, requested status, RCA and snapshot
tuple) or to `skipped` (carrying the id and reason). -/
inductive DefDecision where
  | eligible (defect_id status rca : String) (defect : Defect)
  | skipped (defect_id : String) (reason : DefSkipReason)
deriving DecidableEq

/-- The body of the `for row in csv_rows` validation loop of
`update_bulk_defects` (`src/modules/defect.py:527`-549), checks in source
order: requested status must be `close` case-insensitively, the fetched
snapshot must be truthy, and its current status must not already be `close`. -/
def classifyDefRow (fetched : String → Option Defect) (row : DefRow) : DefDecision :=
  if strLower row.status ≠ "close" then
    .skipped row.defect_id (.invalidStatus row.status)
  else if defectFalsy (fetched row.defect_id) then
    .skipped row.defect_id .notFound
  else
    let d := (fetched row.defect_id).getD []
    if strLower (defectStatus d) = "close" then
      .skipped row.defect_id .alreadyClosed
    else
      .eligible row.defect_id row.status row.rca d

/-- The `valid`/`skipped` lists built by the validation loop of
`update_bulk_defects` (`src/modules/defect.py:524`-549), in input row
order. -/
def update_bulk_validate (fetched : String → Option Defect) :
    List DefRow → List (String × String × String × Defect) × List (String × DefSkipReason)
  | [] => ([], [])
  | row :: rest =>
    match classifyDefRow fetched row with
    | .eligible did st rca d =>
      ((did, st, rca, d) :: (update_bulk_validate fetched rest).1,
       (update_bulk_validate fetched rest).2)
    | .skipped did r =>
      ((update_bulk_validate fetched rest).1,
       (did, r) :: (update_bulk_validate fetched rest).2)

/-- A test case of the fetched cycle as consumed by `execute_all_from_csv`:
the four fields the code reads (`tc_name`, `testcase_id`, `build_id`,
`testscenario_id`). -/
structure TC where
  tc_name : String
  testcase_id : Nat
  build_id : Nat
  testscenario_id : Nat
deriving DecidableEq

/-- Split a character list at every occurrence of `c` (the pieces, in
order; an empty input gives one empty piece, like Python `split`). -/
def splitOnChar (c : Char) : List Char → List (List Char)
  | [] => [[]]
  | x :: rest =>
    match splitOnChar c rest with
    | [] => [[]]
    | g :: gs => if x = c then [] :: g :: gs else (x :: g) :: gs

/-- `PurePosixPath(p).name`: the last nonempty path component. -/
def pathName (p : String) : String :=
  String.mk (((splitOnChar '/' p.toList).filter (fun s => !s.isEmpty)).getLastD [])

/-- `PurePosixPath(p).suffix`: the final `.`-extension of the name, including
the dot; empty when the name has no dot, starts with its only dot, or ends
with the dot. -/
def pathSuffix (p : String) : String :=
  let parts := splitOnChar '.' (pathName p).toList
  if decide (2 ≤ parts.length) && !(parts.getLastD []).isEmpty &&
      !(decide (parts.length = 2) && (parts.headD []).isEmpty) then
    "." ++ String.mk (parts.getLastD [])
  else ""

/-- `attachment_path.suffix[1:].lower()` from
`src/modules/test_cycle.py:760`. -/
def extOf (p : String) : String :=
  strLower ((pathSuffix p).drop 1)

/-- `ALLOWED_EXTENSIONS` from `src/modules/test_cycle.py:25`. -/
def ALLOWED_EXTENSIONS : List String :=
  ["gif", "jpg", "png", "jpeg", "pdf", "docx", "csv",
   "xls", "ppt", "mp4", "webm", "msg", "eml", "zip", "xml", "pcap"]

/-- Lookup in `test_lookup = \x7btc.get('tc_name'): tc for tc in test_cases\x7d`
(`src/modules/test_cycle.py:733`): a dict comprehension keeps the last entry
for a duplicated name, so lookup finds the last test case with the given
name. -/
def lookupTC (test_cases : List TC) (name : String) : Option TC :=
  test_cases.reverse.find? (fun tc => tc.tc_name = name)

/-- One CSV row of the bulk test-execution input
(`test_case_name,status,attachment`, `src/modules/test_cycle.py:739`-742). -/
structure ExecRow where
  test_case_name : String
  status : String
  attachment : String
deriving DecidableEq

/-- The skip reasons of `execute_all_from_csv`
(`src/modules/test_cycle.py:746`, 751, 757, 762); `fileNotFound` and
`invalidFileType` carry the path / extension interpolated into the message. -/
inductive ExecSkipReason where
  | invalidStatus
  | testCaseNotFound
  | fileNotFound (path : String)
  | invalidFileType (ext : String)
deriving DecidableEq

/-- The decision the `execute_all_from_csv` validation loop takes for one
row: append to `matched` (name, matched test case, attachment path) or to
`skipped` (name, reason, attachment-or-`None`). -/
inductive ExecDecision where
  | matched (name : String) (tc : TC) (attachment : String)
  | skipped (name : String) (reason : ExecSkipReason) (attachment : Option String)
deriving DecidableEq

/-- The body of the `for row in csv_rows` validation loop of
`execute_all_from_csv` (`src/modules/test_cycle.py:739`-765), checks in
source order: status must be exactly `Passed`, the name must be a key of
`test_lookup`, the attachment must exist on disk, and its extension must be
allowed. `fileExists` is the filesystem oracle for `Path(...).exists()`. -/
def classifyExecRow (test_cases : List TC) (fileExists : String → Bool)
    (row : ExecRow) : ExecDecision :=
  if row.status ≠ "Passed" then
    .skipped row.test_case_name .invalidStatus none
  else
    match lookupTC test_cases row.test_case_name with
    | none => .skipped row.test_case_name .testCaseNotFound (some row.attachment)
    | some tc =>
      if !fileExists row.attachment then
        .skipped row.test_case_name (.fileNotFound row.attachment) (some row.attachment)
      else if !(ALLOWED_EXTENSIONS.contains (extOf row.attachment)) then
        .skipped row.test_case_name (.invalidFileType (extOf row.attachment)) (some row.attachment)
      else
        .matched row.test_case_name tc row.attachment

/-- The `matched`/`skipped` lists built by the validation loop of
`execute_all_from_csv` (`src/modules/test_cycle.py:736`-765), in input row
order. -/
def execute_all_validate (test_cases : List TC) (fileExists : String → Bool) :
    List ExecRow →
      List (String × TC × String) × List (String × ExecSkipReason × Option String)
  | [] => ([], [])
  | row :: rest =>
    match classifyExecRow test_cases fileExists row with
    | .matched n tc att =>
      ((n, tc, att) :: (execute_all_validate test_cases fileExists rest).1,
       (execute_all_validate test_cases fileExists rest).2)
    | .skipped n r att =>
      ((execute_all_validate test_cases fileExists rest).1,
       (n, r, att) :: (execute_all_validate test_cases fileExists rest).2)

/-- Observable outcome of one HTTP exchange, supplied by the environment:
either the request raised a `RequestException` before a response arrived, or
a response with a status code and a parse outcome (`none` = `response.json()`
raised) was received. -/
inductive HttpOutcome (β : Type) where
  | netError
  | response (status : Nat) (body : Option β)

/-- The exception classes that can escape the request helpers: a transport
`RequestException`, the `HTTPError` raised by `raise_for_status()`, or a
body-parse error. -/
inductive ApiErr where
  | requestErr
  | httpStatusErr
  | parseErr
deriving DecidableEq

/-- A parsed JSON response body, restricted to the two envelope fields the
list/update paths read: the `data` array and the boolean `status` flag. -/
structure ApiBody (α : Type) where
  data? : Option (List α) := none
  status? : Option Bool := none

/-- `KualiteeDefectAPI._request` (`src/modules/defect.py:132`-160) as a
function of the exchange outcome: a transport error propagates,
`raise_for_status()` raises on a 4xx/5xx status, and a body that fails to
parse raises; otherwise the parsed body is returned. -/
def defect_request {α : Type} (o : HttpOutcome (ApiBody α)) :
    Except ApiErr (ApiBody α) :=
  match o with
  | .netError => .error .requestErr
  | .response st body =>
    if 400 ≤ st ∧ st < 600 then .error .httpStatusErr
    else
      match body with
      | none => .error .parseErr
      | some b => .ok b

/-- `KualiteeAPI._request` (`src/modules/test_cycle.py:162`-194): the
`except RequestException` handler logs and then re-raises, so the observable
outcome is the same as `defect_request` — errors propagate to the caller. -/
def cycle_request {α : Type} (o : HttpOutcome (ApiBody α)) :
    Except ApiErr (ApiBody α) :=
  match o with
  | .netError => .error .requestErr
  | .response st body =>
    if 400 ≤ st ∧ st < 600 then .error .httpStatusErr
    else
      match body with
      | none => .error .parseErr
      | some b => .ok b

/-- `list_defects` (`src/modules/defect.py:162`-193): the whole request is
wrapped in `try`/`except RequestException`/`except Exception`, both handlers
returning `[]`; on success the `data` array is extracted with
`response.get('data', [])`. -/
def list_defects (o : HttpOutcome (ApiBody Defect)) : List Defect :=
  match defect_request o with
  | .error _ => []
  | .ok b => b.data?.getD []

/-- `list_cycles` (`src/modules/test_cycle.py:196`-207): no `try` around the
request, so any exception from `_request` propagates to the caller; a parsed
response without a `data` key (which subsumes a falsy empty dict) yields
`[]`, otherwise `response['data']` is returned. -/
def list_cycles (o : HttpOutcome (ApiBody Defect)) : Except ApiErr (List Defect) :=
  match cycle_request o with
  | .error e => .error e
  | .ok b => .ok (b.data?.getD [])

/-- `list_test_cases` (`src/modules/test_cycle.py:209`-222): identical error
shape to `list_cycles` (the `cycle_id` only parameterizes the request
payload). -/
def list_test_cases (_cycle_id : Nat) (o : HttpOutcome (ApiBody TC)) :
    Except ApiErr (List TC) :=
  match cycle_request o with
  | .error e => .error e
  | .ok b => .ok (b.data?.getD [])

/-- The return value of `update_defect` (`src/modules/defect.py:261`-275):
`True` as soon as `_request` returns (the response body, and in particular
its `status` flag, is never inspected); the two `except` handlers both
return `False`. -/
def update_defect_result (o : HttpOutcome (ApiBody Defect)) : Bool :=
  match defect_request o with
  | .error _ => false
  | .ok _ => true

/-- The value stored by `get_multiple_defects` for one future
(`src/modules/defect.py:296`-303): the fetched details (`None` on a failed
or not-found fetch by the `get_defect_details` contract), or `None` again
when `future.result()` itself raises. -/
def fetchValue (fetch : String → Except Unit (Option Defect)) (id : String) :
    Option Defect :=
  match fetch id with
  | .ok v => v
  | .error _ => none

/-- `get_multiple_defects` (`src/modules/defect.py:277`-305): one future is
submitted per requested id and the `results` dict is filled in completion
order (`order`, a permutation of the requested ids); each completion writes
`results[defect_id]`. -/
def get_multiple_defects (fetch : String → Except Unit (Option Defect))
    (order : List String) : List (String × Option Defect) :=
  order.foldl (fun acc id => setKey acc id (fetchValue fetch id)) []

/-- The update loop of `update_bulk_defects` (`src/modules/defect.py:594`-607):
one `api.update_defect(defect_id, status, rca, defect)` call per valid row,
tallying `success_count`/`fail_count` and always continuing. -/
def run_defect_batch (upd : String → String → String → Defect → Bool) :
    List (String × String × String × Defect) → Nat × Nat
  | [] => (0, 0)
  | (did, st, rca, d) :: rest =>
    if upd did st rca d then
      ((run_defect_batch upd rest).1 + 1, (run_defect_batch upd rest).2)
    else
      ((run_defect_batch upd rest).1, (run_defect_batch upd rest).2 + 1)

/-- The whole confirmed bulk-defect run (`src/modules/defect.py:524`-613):
validate, execute the valid rows, and report
(`success_count`, `fail_count`, `len(skipped)`). -/
def update_bulk_run (fetched : String → Option Defect)
    (upd : String → String → String → Defect → Bool) (rows : List DefRow) :
    Nat × Nat × Nat :=
  ((run_defect_batch upd (update_bulk_validate fetched rows).1).1,
   (run_defect_batch upd (update_bulk_validate fetched rows).1).2,
   (update_bulk_validate fetched rows).2.length)

/-- A remote write performed by the execute-then-upload loop. The code has no
rollback operation: these are the only calls it can emit. -/
inductive RemoteCall where
  | execCall (tc : TC)
  | uploadCall (tc : TC) (execution_id attachment : String)
deriving DecidableEq

/-- The body of the execution loop of `execute_all_from_csv`
(`src/modules/test_cycle.py:813`-848) for one matched row, with the calls it
performs: `api.execute_test` (which can raise — the surrounding
`try`/`except` counts that as a failure), then on a returned execution id,
`api.upload_attachment` (which catches its own exceptions and returns a
boolean). Returns (succeeded?, calls made). -/
def processExecRow (exec : TC → Except Unit (Option String))
    (upload : TC → String → String → Bool) (item : String × TC × String) :
    Bool × List RemoteCall :=
  let (_, tc, att) := item
  match exec tc with
  | .error _ => (false, [.execCall tc])
  | .ok none => (false, [.execCall tc])
  | .ok (some eid) => (upload tc eid att, [.execCall tc, .uploadCall tc eid att])

/-- The execution loop of `execute_all_from_csv`
(`src/modules/test_cycle.py:808`-848): rows processed in order, tallying
`success_count`/`fail_count` and always continuing. -/
def run_exec_batch (exec : TC → Except Unit (Option String))
    (upload : TC → String → String → Bool) :
    List (String × TC × String) → Nat × Nat
  | [] => (0, 0)
  | item :: rest =>
    if (processExecRow exec upload item).1 then
      ((run_exec_batch exec upload rest).1 + 1, (run_exec_batch exec upload rest).2)
    else
      ((run_exec_batch exec upload rest).1, (run_exec_batch exec upload rest).2 + 1)

/-- C9: for every token string, `mask_token` returns `"****"` when the
token's length is at most 8, and otherwise the first 4 characters, `"..."`,
and the last 4 characters; in particular the 12-character token
`"abcd1234efgh"` is masked as `"abcd...efgh"`. -/
theorem mask_token_spec (token : String) :
    (token.length ≤ 8 → mask_token token = "****") ∧
    (8 < token.length →
      mask_token token = token.take 4 ++ "..." ++ token.drop (token.length - 4)) ∧
    mask_token "abcd1234efgh" = "abcd...efgh" := by
  refine ⟨fun h => ?_, fun h => ?_, by decide⟩
  · simp [mask_token, h]
  · simp [mask_token, Nat.not_le.mpr h]

/-- C9 witness: `mask_token_spec` applied to the 12-character token of the
spec. -/
theorem mask_token_spec_witness :
    mask_token "abcd1234efgh" =
      "abcd1234efgh".take 4 ++ "..." ++
        "abcd1234efgh".drop ("abcd1234efgh".length - 4) :=
  (mask_token_spec "abcd1234efgh").2.1 (by decide)

/-- C10: `update_defect` returns `True` for every HTTP 200 exchange with a
parseable JSON body, never inspecting the body's `status` flag; in
particular a server-side failure reported as `\x7b"status": false\x7d` over
HTTP 200 is returned as success, and such a row is tallied as Succeeded by
the bulk update loop. -/
theorem update_defect_ignores_body :
    (∀ b : ApiBody Defect, update_defect_result (.response 200 (some b)) = true) ∧
    update_defect_result (.response 200 (some { status? := some false })) = true ∧
    (∀ item : String × String × String × Defect,
      run_defect_batch
        (fun _ _ _ _ =>
          update_defect_result (.response 200 (some { status? := some false })))
        [item] = (1, 0)) := by
  refine ⟨fun b => rfl, rfl, fun item => ?_⟩
  obtain ⟨did, st, rca, d⟩ := item
  rfl

/-- C6 counterexample: a transport error in `list_cycles` propagates as an
exception instead of yielding an empty sequence. -/
theorem list_cycles_propagates_counterexample :
    list_cycles .netError = .error .requestErr ∧
    list_cycles .netError ≠ .ok [] := by
  exact ⟨rfl, fun h => Except.noConfusion h⟩

/-- C6 (amended): `list_defects` fails soft — any request error yields `[]` —
while `list_cycles` and `list_test_cases` propagate transport/HTTP/parse
errors to the caller and return an empty list only when a successful
response lacks a `data` array. -/
theorem list_ops_error_behaviour :
    (∀ (o : HttpOutcome (ApiBody Defect)) (e : ApiErr),
        defect_request o = .error e → list_defects o = []) ∧
    (∀ (o : HttpOutcome (ApiBody Defect)) (e : ApiErr),
        cycle_request o = .error e → list_cycles o = .error e) ∧
    (∀ (o : HttpOutcome (ApiBody Defect)) (b : ApiBody Defect),
        cycle_request o = .ok b → list_cycles o = .ok (b.data?.getD [])) ∧
    (∀ (cid : Nat) (o : HttpOutcome (ApiBody TC)) (e : ApiErr),
        cycle_request o = .error e → list_test_cases cid o = .error e) := by
  refine ⟨fun o e h => ?_, fun o e h => ?_, fun o b h => ?_, fun cid o e h => ?_⟩
  · simp [list_defects, h]
  · simp [list_cycles, h]
  · simp [list_cycles, h]
  · simp [list_test_cases, h]

/-- C6 witness: `list_ops_error_behaviour` applied to a transport error and
to an HTTP 500 exchange. -/
theorem list_ops_error_behaviour_witness :
    list_defects .netError = [] ∧
    list_cycles (.response 500 none) = .error .httpStatusErr := by
  exact ⟨list_ops_error_behaviour.1 .netError .requestErr rfl,
         list_ops_error_behaviour.2.1 (.response 500 none) .httpStatusErr rfl⟩

theorem getKey_copyFields_not_mem (dd : List (String × PyVal)) (k : String)
    (h : k ∉ dd.map Prod.fst) : getKey (copyFields dd) k = none := by
  induction dd with
  | nil => rfl
  | cons hd tl ih =>
    obtain ⟨k₀, v₀⟩ := hd
    simp only [List.map_cons, List.mem_cons, not_or] at h
    obtain ⟨hne, htl⟩ := h
    unfold copyFields
    cases hs : serializeVal v₀ with
    | none => exact ih htl
    | some s =>
      rw [getKey_cons, if_neg (fun he => hne he.symm)]
      exact ih htl

theorem getKey_copyFields (dd : List (String × PyVal)) (k : String) (v : PyVal)
    (hnodup : (dd.map Prod.fst).Nodup) (hmem : (k, v) ∈ dd) :
    getKey (copyFields dd) k = serializeVal v := by
  induction dd with
  | nil => cases hmem
  | cons hd tl ih =>
    obtain ⟨k₀, v₀⟩ := hd
    rw [List.map_cons, List.nodup_cons] at hnodup
    obtain ⟨hk₀, htl⟩ := hnodup
    rcases List.mem_cons.mp hmem with heq | hmem'
    · obtain ⟨hk, hv⟩ := Prod.mk.injEq k v k₀ v₀ ▸ heq
      subst hk
      subst hv
      unfold copyFields
      cases hs : serializeVal v with
      | none => exact getKey_copyFields_not_mem tl k hk₀
      | some s =>
        rw [getKey_cons, if_pos rfl]
    · have hk_in : k ∈ tl.map Prod.fst := List.mem_map.mpr ⟨(k, v), hmem', rfl⟩
      have hne : ¬ k₀ = k := fun he => hk₀ (he ▸ hk_in)
      unfold copyFields
      cases hs : serializeVal v₀ with
      | none => exact ih htl hmem'
      | some s =>
        rw [getKey_cons, if_neg hne]
        exact ih htl hmem'

/-- C1: every field of the snapshot other than the overridden/added keys
(`status`, `custom_field_11665`, `token`, `project_id`, `id`, `defect_id`)
round-trips through the submitted `update_defect` form with the copy-loop
serialization: lists become the comma-join of the `str` of their elements
(empty list becomes the empty string), `None` becomes the empty string,
dicts are omitted from the submission, anything else becomes `str(value)`. -/
theorem update_defect_preserves_fields (token : String) (project_id : Int)
    (defect_id status rca : String) (defect_data : List (String × PyVal))
    (k : String) (v : PyVal)
    (hnodup : (defect_data.map Prod.fst).Nodup)
    (hmem : (k, v) ∈ defect_data)
    (hk : k ∉ ["status", "custom_field_11665", "token", "project_id", "id",
               "defect_id"]) :
    getKey (updateDefectForm token project_id defect_id status rca defect_data) k =
      serializeVal v := by
  simp only [List.mem_cons, List.not_mem_nil, or_false, not_or] at hk
  obtain ⟨h1, h2, h3, h4, h5, h6⟩ := hk
  unfold updateDefectForm
  rw [getKey_setKey, if_neg h6, getKey_setKey, if_neg h5, getKey_setKey, if_neg h4,
      getKey_setKey, if_neg h3, getKey_setKey, if_neg h2, getKey_setKey, if_neg h1]
  exact getKey_copyFields defect_data k v hnodup hmem

/-- A concrete defect snapshot exercising the list, null, dict and scalar
serialization cases. -/
def sampleSnapshot : List (String × PyVal) :=
  [("description", .vstr "Login fails"),
   ("tags", .vlist [.vstr "a", .vstr "b"]),
   ("assigned_to", .vnull),
   ("custom_fields", .vdict [("custom_field_11665", .vstr "Code: Bug")]),
   ("severity_id", .vint 3)]

/-- C1 witness: `update_defect_preserves_fields` applied to the sample
snapshot at the list-valued, null-valued and dict-valued fields of the
spec's examples. -/
theorem update_defect_preserves_fields_witness :
    getKey (updateDefectForm "tok" 27433 "265744" "close" "Code: Bug" sampleSnapshot)
        "tags" = some "a,b" ∧
    getKey (updateDefectForm "tok" 27433 "265744" "close" "Code: Bug" sampleSnapshot)
        "assigned_to" = some "" ∧
    getKey (updateDefectForm "tok" 27433 "265744" "close" "Code: Bug" sampleSnapshot)
        "custom_fields" = none := by
  refine ⟨?_, ?_, ?_⟩
  · rw [update_defect_preserves_fields "tok" 27433 "265744" "close" "Code: Bug"
      sampleSnapshot "tags" (.vlist [.vstr "a", .vstr "b"])
      (by decide) (List.Mem.tail _ (List.Mem.head _)) (by decide)]
    rfl
  · rw [update_defect_preserves_fields "tok" 27433 "265744" "close" "Code: Bug"
      sampleSnapshot "assigned_to" .vnull
      (by decide) (List.Mem.tail _ (List.Mem.tail _ (List.Mem.head _))) (by decide)]
    rfl
  · rw [update_defect_preserves_fields "tok" 27433 "265744" "close" "Code: Bug"
      sampleSnapshot "custom_fields"
      (.vdict [("custom_field_11665", .vstr "Code: Bug")])
      (by decide)
      (List.Mem.tail _ (List.Mem.tail _ (List.Mem.tail _ (List.Mem.head _))))
      (by decide)]
    rfl

/-- Whether a bulk-defect decision goes to the `valid` list. -/
def defIsEligible : DefDecision → Bool
  | .eligible _ _ _ _ => true
  | .skipped _ _ => false

/-- C2: a bulk defect-closure CSV row is classified Eligible iff its status
is `close` case-insensitively, its defect id has a fetched (non-absent,
i.e. truthy) entity, and that entity's current status is not already
`close` case-insensitively; the first failing rule in source order (invalid
status, then not found, then already closed) fixes the skip reason. -/
theorem bulk_defect_row_classification (fetched : String → Option Defect)
    (row : DefRow) :
    (defIsEligible (classifyDefRow fetched row) = true ↔
      (strLower row.status = "close" ∧
        defectFalsy (fetched row.defect_id) = false ∧
        strLower (defectStatus ((fetched row.defect_id).getD [])) ≠ "close")) ∧
    (strLower row.status ≠ "close" →
      classifyDefRow fetched row = .skipped row.defect_id (.invalidStatus row.status)) ∧
    (strLower row.status = "close" → defectFalsy (fetched row.defect_id) = true →
      classifyDefRow fetched row = .skipped row.defect_id .notFound) ∧
    (strLower row.status = "close" → defectFalsy (fetched row.defect_id) = false →
      strLower (defectStatus ((fetched row.defect_id).getD [])) = "close" →
      classifyDefRow fetched row = .skipped row.defect_id .alreadyClosed) := by
  by_cases h1 : strLower row.status = "close"
  · by_cases h2 : defectFalsy (fetched row.defect_id) = true
    · simp [classifyDefRow, defIsEligible, h1, h2]
    · rw [Bool.not_eq_true] at h2
      by_cases h3 :
          strLower (defectStatus ((fetched row.defect_id).getD [])) = "close"
      · simp [classifyDefRow, defIsEligible, h1, h2, h3]
      · simp [classifyDefRow, defIsEligible, h1, h2, h3]
  · simp [classifyDefRow, defIsEligible, h1]

/-- The mapping `defects_data.get` warmed for the witness: defect 100 is
open, defect 200 is already closed, defect 300 is unknown. -/
def sampleFetched : String → Option Defect :=
  fun id =>
    if id = "100" then some [("status", "Open"), ("uc_status", "Open")]
    else if id = "200" then some [("status", "Close"), ("uc_status", "Close")]
    else none

/-- C2 witness: `bulk_defect_row_classification` applied to a concrete open
defect with requested status `Close` (mixed case), and to a row with an
invalid requested status. -/
theorem bulk_defect_row_classification_witness :
    defIsEligible (classifyDefRow sampleFetched ⟨"100", "Close", "Code: Bug"⟩) = true ∧
    classifyDefRow sampleFetched ⟨"300", "open", "Code: Bug"⟩ =
      .skipped "300" (.invalidStatus "open") := by
  exact ⟨(bulk_defect_row_classification sampleFetched ⟨"100", "Close", "Code: Bug"⟩).1.mpr
           (by decide),
         (bulk_defect_row_classification sampleFetched ⟨"300", "open", "Code: Bug"⟩).2.1
           (by decide)⟩

/-- The `valid`-list entry a bulk-defect decision contributes. -/
def defEligiblePart : DefDecision → Option (String × String × String × Defect)
  | .eligible a b c d => some (a, b, c, d)
  | .skipped _ _ => none

/-- The `skipped`-list entry a bulk-defect decision contributes. -/
def defSkippedPart : DefDecision → Option (String × DefSkipReason)
  | .eligible _ _ _ _ => none
  | .skipped i r => some (i, r)

/-- The `matched`-list entry a bulk-execution decision contributes. -/
def execMatchedPart : ExecDecision → Option (String × TC × String)
  | .matched n tc att => some (n, tc, att)
  | .skipped _ _ _ => none

/-- The `skipped`-list entry a bulk-execution decision contributes. -/
def execSkippedPart : ExecDecision → Option (String × ExecSkipReason × Option String)
  | .matched _ _ _ => none
  | .skipped n r att => some (n, r, att)

theorem update_bulk_validate_eq (fetched : String → Option Defect) :
    ∀ rows : List DefRow,
      update_bulk_validate fetched rows =
        (rows.filterMap (fun r => defEligiblePart (classifyDefRow fetched r)),
         rows.filterMap (fun r => defSkippedPart (classifyDefRow fetched r)))
  | [] => rfl
  | row :: rest => by
    unfold update_bulk_validate
    rw [update_bulk_validate_eq fetched rest]
    cases h : classifyDefRow fetched row <;>
      simp [List.filterMap_cons, h, defEligiblePart, defSkippedPart]

theorem execute_all_validate_eq (test_cases : List TC) (fileExists : String → Bool) :
    ∀ rows : List ExecRow,
      execute_all_validate test_cases fileExists rows =
        (rows.filterMap (fun r => execMatchedPart (classifyExecRow test_cases fileExists r)),
         rows.filterMap (fun r => execSkippedPart (classifyExecRow test_cases fileExists r)))
  | [] => rfl
  | row :: rest => by
    unfold execute_all_validate
    rw [execute_all_validate_eq test_cases fileExists rest]
    cases h : classifyExecRow test_cases fileExists row <;>
      simp [List.filterMap_cons, h, execMatchedPart, execSkippedPart]

theorem update_bulk_validate_length (fetched : String → Option Defect) :
    ∀ rows : List DefRow,
      (update_bulk_validate fetched rows).1.length +
        (update_bulk_validate fetched rows).2.length = rows.length
  | [] => rfl
  | row :: rest => by
    have ih := update_bulk_validate_length fetched rest
    unfold update_bulk_validate
    cases h : classifyDefRow fetched row <;> simp <;> omega

theorem execute_all_validate_length (test_cases : List TC) (fileExists : String → Bool) :
    ∀ rows : List ExecRow,
      (execute_all_validate test_cases fileExists rows).1.length +
        (execute_all_validate test_cases fileExists rows).2.length = rows.length
  | [] => rfl
  | row :: rest => by
    have ih := execute_all_validate_length test_cases fileExists rest
    unfold execute_all_validate
    cases h : classifyExecRow test_cases fileExists row <;> simp <;> omega

/-- C3: in both bulk variants every input row yields exactly one decision —
eligible count plus skipped count equals the input row count — and each
output group is the in-order `filterMap` of the per-row decisions over the
input, so each group preserves the input's relative order. -/
theorem bulk_validation_partition (fetched : String → Option Defect)
    (rows : List DefRow) (test_cases : List TC) (fileExists : String → Bool)
    (erows : List ExecRow) :
    ((update_bulk_validate fetched rows).1.length +
        (update_bulk_validate fetched rows).2.length = rows.length) ∧
    (update_bulk_validate fetched rows).1 =
        rows.filterMap (fun r => defEligiblePart (classifyDefRow fetched r)) ∧
    (update_bulk_validate fetched rows).2 =
        rows.filterMap (fun r => defSkippedPart (classifyDefRow fetched r)) ∧
    ((execute_all_validate test_cases fileExists erows).1.length +
        (execute_all_validate test_cases fileExists erows).2.length = erows.length) ∧
    (execute_all_validate test_cases fileExists erows).1 =
        erows.filterMap (fun r => execMatchedPart (classifyExecRow test_cases fileExists r)) ∧
    (execute_all_validate test_cases fileExists erows).2 =
        erows.filterMap (fun r => execSkippedPart (classifyExecRow test_cases fileExists r)) := by
  refine ⟨update_bulk_validate_length fetched rows, ?_, ?_,
          execute_all_validate_length test_cases fileExists erows, ?_, ?_⟩
  · rw [update_bulk_validate_eq fetched rows]
  · rw [update_bulk_validate_eq fetched rows]
  · rw [execute_all_validate_eq test_cases fileExists erows]
  · rw [execute_all_validate_eq test_cases fileExists erows]

/-- Two fetched test cases sharing the name `TC_Android_01`. -/
def dupTCs : List TC :=
  [⟨"TC_Android_01", 1, 10, 100⟩, ⟨"TC_Android_01", 2, 20, 200⟩]

/-- C4 counterexample: a row naming a test case that matches TWO fetched
entities is not Skipped — the lookup dict keeps the last entity with that
name and the row proceeds to an Eligible (matched) decision. -/
theorem exec_duplicate_name_counterexample :
    classifyExecRow dupTCs (fun _ => true)
        ⟨"TC_Android_01", "Passed", "shots/x.png"⟩ =
      .matched "TC_Android_01" ⟨"TC_Android_01", 2, 20, 200⟩ "shots/x.png" ∧
    classifyExecRow dupTCs (fun _ => true)
        ⟨"TC_Android_01", "Passed", "shots/x.png"⟩ ≠
      .skipped "TC_Android_01" .testCaseNotFound (some "shots/x.png") := by
  exact ⟨by decide, by decide⟩

/-- C4 (amended): for a row with status exactly `Passed`, the name gate
skips the row with reason test-case-not-found iff NO fetched entity bears
that name; when at least one does, the row is never skipped for that
reason, and (with an existing attachment of allowed type) it proceeds to an
Eligible decision carrying the LAST entity with that name in fetched
order. -/
theorem exec_name_gate (test_cases : List TC) (fileExists : String → Bool)
    (row : ExecRow) (hst : row.status = "Passed") :
    (lookupTC test_cases row.test_case_name = none →
      classifyExecRow test_cases fileExists row =
        .skipped row.test_case_name .testCaseNotFound (some row.attachment)) ∧
    (lookupTC test_cases row.test_case_name = none ↔
      ∀ tc ∈ test_cases, tc.tc_name ≠ row.test_case_name) ∧
    (∀ tc, lookupTC test_cases row.test_case_name = some tc →
      classifyExecRow test_cases fileExists row ≠
        .skipped row.test_case_name .testCaseNotFound (some row.attachment)) ∧
    (∀ tc, lookupTC test_cases row.test_case_name = some tc →
      fileExists row.attachment = true →
      extOf row.attachment ∈ ALLOWED_EXTENSIONS →
      classifyExecRow test_cases fileExists row =
        .matched row.test_case_name tc row.attachment) := by
  have hst' : ¬ row.status ≠ "Passed" := fun h => h hst
  refine ⟨fun hnone => ?_, ?_, fun tc htc => ?_, fun tc htc hfile hext => ?_⟩
  · simp [classifyExecRow, hst', hnone]
  · rw [lookupTC, List.find?_eq_none]
    constructor
    · intro h tc htc
      have := h tc (List.mem_reverse.mpr htc)
      simpa using this
    · intro h tc htc
      have := h tc (List.mem_reverse.mp htc)
      simpa using this
  · simp only [classifyExecRow, if_neg hst', htc]
    by_cases hfile : fileExists row.attachment
    · by_cases hext : extOf row.attachment ∈ ALLOWED_EXTENSIONS
      · simp [hfile, hext]
      · simp [hfile, hext]
    · simp [hfile]
  · simp [classifyExecRow, hst', htc, hfile, hext]

/-- C4 witness: `exec_name_gate` applied to an unmatched name, producing the
test-case-not-found skip. -/
theorem exec_name_gate_witness :
    classifyExecRow [⟨"TC_A", 1, 1, 1⟩] (fun _ => true)
        ⟨"TC_B", "Passed", "shots/x.png"⟩ =
      .skipped "TC_B" .testCaseNotFound (some "shots/x.png") :=
  (exec_name_gate [⟨"TC_A", 1, 1, 1⟩] (fun _ => true)
    ⟨"TC_B", "Passed", "shots/x.png"⟩ rfl).1 (by decide)

/-- C5 counterexample: a `Passed` row whose attachment does not exist AND
whose named test case is unknown is skipped with reason test-case-not-found,
not file-not-found — the name gate runs first. -/
theorem exec_missing_file_counterexample :
    classifyExecRow [⟨"TC_A", 1, 1, 1⟩] (fun _ => false)
        ⟨"TC_B", "Passed", "missing.png"⟩ =
      .skipped "TC_B" .testCaseNotFound (some "missing.png") ∧
    classifyExecRow [⟨"TC_A", 1, 1, 1⟩] (fun _ => false)
        ⟨"TC_B", "Passed", "missing.png"⟩ ≠
      .skipped "TC_B" (.fileNotFound "missing.png") (some "missing.png") := by
  exact ⟨by decide, by decide⟩

/-- C5 (amended): a `Passed` row whose attachment path does not reference an
existing file is Skipped(file not found) when its named test case matches a
fetched entity; when the name matches no entity the row is still Skipped,
but with reason test-case-not-found. -/
theorem exec_file_gate (test_cases : List TC) (fileExists : String → Bool)
    (row : ExecRow) (hst : row.status = "Passed")
    (hfile : fileExists row.attachment = false) :
    (∀ tc, lookupTC test_cases row.test_case_name = some tc →
      classifyExecRow test_cases fileExists row =
        .skipped row.test_case_name (.fileNotFound row.attachment)
          (some row.attachment)) ∧
    (lookupTC test_cases row.test_case_name = none →
      classifyExecRow test_cases fileExists row =
        .skipped row.test_case_name .testCaseNotFound (some row.attachment)) := by
  have hst' : ¬ row.status ≠ "Passed" := fun h => h hst
  refine ⟨fun tc htc => ?_, fun hnone => ?_⟩
  · simp [classifyExecRow, hst', htc, hfile]
  · simp [classifyExecRow, hst', hnone]

/-- C5 witness: `exec_file_gate` applied to a known test case with a missing
attachment. -/
theorem exec_file_gate_witness :
    classifyExecRow [⟨"TC_A", 1, 1, 1⟩] (fun _ => false)
        ⟨"TC_A", "Passed", "missing.png"⟩ =
      .skipped "TC_A" (.fileNotFound "missing.png") (some "missing.png") :=
  (exec_file_gate [⟨"TC_A", 1, 1, 1⟩] (fun _ => false)
    ⟨"TC_A", "Passed", "missing.png"⟩ rfl rfl).1 ⟨"TC_A", 1, 1, 1⟩ (by decide)

theorem getKey_gmd_foldl (fetch : String → Except Unit (Option Defect))
    (order : List String) :
    ∀ (acc : List (String × Option Defect)) (id : String),
      getKey (order.foldl (fun acc id => setKey acc id (fetchValue fetch id)) acc) id =
        if id ∈ order then some (fetchValue fetch id) else getKey acc id := by
  induction order with
  | nil => intro acc id; simp
  | cons o rest ih =>
    intro acc id
    rw [List.foldl_cons, ih]
    by_cases h : id ∈ rest
    · simp [h]
    · rw [if_neg h, getKey_setKey]
      by_cases ho : id = o
      · simp [ho]
      · simp [ho, h]

/-- C7: the results mapping of `get_multiple_defects` holds exactly one entry
per requested id, whatever the completion order and however individual
fetches fail: a key is present iff it was requested, and a failed or
not-found fetch contributes a `None`-valued entry, never a missing key. -/
theorem get_multiple_defects_complete (ids order : List String)
    (fetch : String → Except Unit (Option Defect)) (hperm : order.Perm ids)
    (id : String) :
    getKey (get_multiple_defects fetch order) id =
      if id ∈ ids then some (fetchValue fetch id) else none := by
  unfold get_multiple_defects
  rw [getKey_gmd_foldl]
  simp only [hperm.mem_iff]
  rfl

/-- The per-id fetch oracle for the C7 witness: defect `"2"`'s future raises,
the others return details. -/
def sampleFetch : String → Except Unit (Option Defect) :=
  fun id => if id = "2" then .error () else .ok (some [("status", "Open")])

/-- C7 witness: `get_multiple_defects_complete` on requested ids
`["1", "2"]` completing in the reversed order — the failed id `"2"` is
present in the mapping with value `None`. -/
theorem get_multiple_defects_complete_witness :
    getKey (get_multiple_defects sampleFetch ["2", "1"]) "2" = some none ∧
    getKey (get_multiple_defects sampleFetch ["2", "1"]) "3" = none := by
  constructor
  · rw [get_multiple_defects_complete ["1", "2"] ["2", "1"] sampleFetch (by decide) "2"]
    decide
  · rw [get_multiple_defects_complete ["1", "2"] ["2", "1"] sampleFetch (by decide) "3"]
    decide

theorem run_defect_batch_length (upd : String → String → String → Defect → Bool) :
    ∀ valid : List (String × String × String × Defect),
      (run_defect_batch upd valid).1 + (run_defect_batch upd valid).2 = valid.length
  | [] => rfl
  | (did, st, rca, d) :: rest => by
    have ih := run_defect_batch_length upd rest
    unfold run_defect_batch
    by_cases h : upd did st rca d = true <;> simp [h] <;> omega

theorem run_exec_batch_length (exec : TC → Except Unit (Option String))
    (upload : TC → String → String → Bool) :
    ∀ matched : List (String × TC × String),
      (run_exec_batch exec upload matched).1 + (run_exec_batch exec upload matched).2 =
        matched.length
  | [] => rfl
  | item :: rest => by
    have ih := run_exec_batch_length exec upload rest
    unfold run_exec_batch
    by_cases h : (processExecRow exec upload item).1 = true <;> simp [h] <;> omega

/-- C8: both batch executors process the eligible rows sequentially, classify
each row as exactly one of Succeeded or Failed and continue regardless, so
succeeded plus failed equals the eligible count and the skipped count stays
the one fixed at validation; a row whose execution succeeds but whose
attachment upload fails is counted Failed while the execute call it
performed stands (the trace holds no rollback — `RemoteCall` has none). -/
theorem batch_executor_tally (upd : String → String → String → Defect → Bool)
    (valid : List (String × String × String × Defect))
    (exec : TC → Except Unit (Option String)) (upload : TC → String → String → Bool)
    (matched : List (String × TC × String)) (fetched : String → Option Defect)
    (rows : List DefRow) (item : String × TC × String) (eid : String) :
    ((run_defect_batch upd valid).1 + (run_defect_batch upd valid).2 = valid.length) ∧
    ((run_exec_batch exec upload matched).1 + (run_exec_batch exec upload matched).2 =
      matched.length) ∧
    (exec item.2.1 = .ok (some eid) → upload item.2.1 eid item.2.2 = false →
      processExecRow exec upload item =
        (false, [.execCall item.2.1, .uploadCall item.2.1 eid item.2.2])) ∧
    ((update_bulk_run fetched upd rows).1 + (update_bulk_run fetched upd rows).2.1 =
        (update_bulk_validate fetched rows).1.length) ∧
    ((update_bulk_run fetched upd rows).2.2 =
        (update_bulk_validate fetched rows).2.length) := by
  refine ⟨run_defect_batch_length upd valid, run_exec_batch_length exec upload matched,
          fun hexec hupload => ?_, run_defect_batch_length upd _, rfl⟩
  obtain ⟨n, tc, att⟩ := item
  simp only [processExecRow] at *
  rw [hexec]
  simp only [hupload]

/-- C8 witness: `batch_executor_tally` applied to a row whose execution
returns id `"E1"` and whose upload fails. -/
theorem batch_executor_tally_witness :
    processExecRow (fun _ => .ok (some "E1")) (fun _ _ _ => false)
        ("TC_A", ⟨"TC_A", 1, 1, 1⟩, "a.png") =
      (false, [.execCall ⟨"TC_A", 1, 1, 1⟩,
               .uploadCall ⟨"TC_A", 1, 1, 1⟩ "E1" "a.png"]) :=
  (batch_executor_tally (fun _ _ _ _ => true) [] (fun _ => .ok (some "E1"))
    (fun _ _ _ => false) [] (fun _ => none) []
    ("TC_A", ⟨"TC_A", 1, 1, 1⟩, "a.png") "E1").2.2.1 rfl rfl

end BetterKualitee
